import Mathlib

/-!
Shallow embedding of the dispatch core of the LLM-EDGE request gateway:
per-provider metrics (src/balancer/stats.rs), provider handles and routing
(src/router/mod.rs), the TTL response cache (src/cache/mod.rs), and the
request orchestrator (src/gateway.rs).

Modelling conventions:
- Rust `u64`/`u32` fields are `Nat` with explicit `% 2^64` / `% 2^32`
  where the source wraps (atomic `fetch_add`, `as u64` casts, `old * 7 +
  latency` in release mode).
- Rust `f64` arithmetic (cost rates, selection scores) is modelled
  exactly over `ℚ`.
- Effects are modelled by explicit state passing: atomics become plain
  fields of a state record, wall-clock time becomes an explicit `now`
  parameter, and the outbound HTTP transport becomes an explicit
  `Transport` outcome argument.
-/

namespace LlmEdge

/-- 2^64, the wrap-around modulus of the Rust `u64` metric fields. -/
def U64 : Nat := 2 ^ 64

/-- 2^32, the wrap-around modulus of the Rust `u32` field `consec_errors`. -/
def U32 : Nat := 2 ^ 32

/-- Token accounting of a response (src/model.rs `TokenUsage`). -/
structure TokenUsage where
  prompt_tokens : Nat
  completion_tokens : Nat
  total_tokens : Nat
deriving Repr, DecidableEq

/-- Response payload (src/model.rs `LlmResponse`). -/
structure LlmResponse where
  content : String
  usage : TokenUsage
  provider : String
  latency_ms : Nat
deriving Repr, DecidableEq

/-- Inbound request (src/model.rs `LlmRequest`); only the fields the
dispatch core reads (`model` and `prompt`) are represented. -/
structure LlmRequest where
  model : String
  prompt : String
deriving Repr, DecidableEq

/-- Immutable provider configuration (src/model.rs `ProviderConfig`);
the `HashMap` model map is an association list, `f64` cost rates are `ℚ`. -/
structure ProviderConfig where
  id : String
  name : String
  endpoint : String
  api_key : String
  cost_per_1k_input : ℚ
  cost_per_1k_output : ℚ
  model_map : List (String × String)
deriving Repr, DecidableEq

/-- Per-provider metric state (src/balancer/stats.rs `ProviderStats`);
each atomic counter is a plain field of the state record. -/
structure ProviderStats where
  request_count : Nat
  error_count : Nat
  p50_latency_us : Nat
  p99_latency_us : Nat
  ewma_latency_us : Nat
  consec_errors : Nat
deriving Repr, DecidableEq

/-- `ProviderStats::new`: every counter starts at zero. -/
def ProviderStats.new : ProviderStats :=
  { request_count := 0
    error_count := 0
    p50_latency_us := 0
    p99_latency_us := 0
    ewma_latency_us := 0
    consec_errors := 0 }

/-- The EWMA update applied by `record_success` once the compare-exchange
loop lands: `if old == 0 { latency } else { (old * 7 + latency) / 8 }`,
with the wrapping `u64` product-sum made explicit. -/
def ewmaNext (old latency_us : Nat) : Nat :=
  if old = 0 then latency_us else (old * 7 + latency_us) % U64 / 8

/-- `ProviderStats::record_success(latency)`: bumps `request_count`,
zeroes `consec_errors`, and folds the microsecond sample (truncated to
`u64` by the `as u64` cast) into the EWMA. -/
def ProviderStats.record_success (s : ProviderStats) (latency_us : Nat) : ProviderStats :=
  { s with
    request_count := (s.request_count + 1) % U64
    consec_errors := 0
    ewma_latency_us := ewmaNext s.ewma_latency_us (latency_us % U64) }

/-- `ProviderStats::record_failure()`: bumps `error_count` (`u64`) and
`consec_errors` (`u32`), both by wrapping `fetch_add(1)`. -/
def ProviderStats.record_failure (s : ProviderStats) : ProviderStats :=
  { s with
    error_count := (s.error_count + 1) % U64
    consec_errors := (s.consec_errors + 1) % U32 }

/-- `ProviderStats::score()`: `l * (1.0 + e * 10.0)` over `f64`,
modelled exactly in `ℚ`. -/
def ProviderStats.score (s : ProviderStats) : ℚ :=
  (s.ewma_latency_us : ℚ) * (1 + (s.consec_errors : ℚ) * 10)

/-- A provider handle (src/router/mod.rs `Provider`): config plus stats. -/
structure Provider where
  config : ProviderConfig
  stats : ProviderStats
deriving Repr, DecidableEq

/-- `Provider::new`: pairs the config with fresh zero stats. -/
def Provider.new (config : ProviderConfig) : Provider :=
  { config := config, stats := ProviderStats.new }

/-- `Provider::is_healthy`: `consec_errors < 5`. -/
def Provider.is_healthy (p : Provider) : Bool :=
  p.stats.consec_errors < 5

/-- `Provider::supports_model`: `model_map.contains_key(model)`. -/
def Provider.supports_model (p : Provider) (model : String) : Bool :=
  (p.config.model_map.find? (fun kv => kv.1 == model)).isSome

/-- Outcome of the outbound HTTP POST inside `Provider::call`, supplied
as an explicit argument: either the send itself fails with an error
message, or a status line arrives together with the result of reading
the body text. -/
structure HttpStatus where
  display : String
  is_success : Bool
deriving Repr

inductive Transport where
  | sendErr (msg : String)
  | response (status : HttpStatus) (text : Except String String)
deriving Repr

/-- `Provider::call(req)` (src/router/mod.rs lines 33-73): on a send
error, returns `Err(e.to_string())`; on a non-success status, returns
`Err(format!("HTTP {}", status))`; on a body-read error, returns that
error; otherwise returns the prototype's fixed success payload. The
function never touches `self.stats`, so the stats component of the
result is threaded through unchanged. -/
def Provider.call (p : Provider) (t : Transport) : Except String LlmResponse × ProviderStats :=
  (match t with
   | .sendErr msg => .error msg
   | .response status text =>
     if !status.is_success then
       .error ("HTTP " ++ status.display)
     else
       match text with
       | .error msg => .error msg
       | .ok _ =>
         .ok { content := "Content from provider"
               usage := { prompt_tokens := 0, completion_tokens := 0, total_tokens := 0 }
               provider := p.config.name
               latency_ms := 0 },
   p.stats)

/-- The router (src/router/mod.rs `Router`); its `ArcSwap` snapshot of
the provider list is modelled as the list itself. -/
structure Router where
  providers : List Provider
deriving Repr

/-- `Router::new(configs)`. -/
def Router.new (configs : List ProviderConfig) : Router :=
  { providers := configs.map Provider.new }

/-- The latency component of the selection score:
`ewma_latency_us as f64 / 1000.0` (EWMA latency in milliseconds). -/
def latencyScore (p : Provider) : ℚ :=
  (p.stats.ewma_latency_us : ℚ) / 1000

/-- The cost component of the selection score:
`cost_per_1k_input * 1000.0`. -/
def costScore (p : Provider) : ℚ :=
  p.config.cost_per_1k_input * 1000

/-- The selection score: `latency_score + cost_score * 100.0`. -/
def selectScore (p : Provider) : ℚ :=
  latencyScore p + costScore p * 100

/-- The `for provider in candidates` loop of `Router::select`, carrying
`(best_candidate, best_score)`. The source seeds `best_score` with
`f64::MAX` and `best_candidate` with `None`; the accumulator `none`
models that seed (every candidate score is finite, hence below the
seed), and the update fires exactly when `score < best_score`. -/
def selectLoop : List Provider → Option (Provider × ℚ) → Option (Provider × ℚ)
  | [], best => best
  | p :: rest, best =>
    match best with
    | none => selectLoop rest (some (p, selectScore p))
    | some (b, bs) =>
      if selectScore p < bs then selectLoop rest (some (p, selectScore p))
      else selectLoop rest (some (b, bs))

/-- `Router::select(req)`: filter the snapshot to providers that support
the request's model and are healthy, then keep the strictly best score. -/
def Router.select (r : Router) (req : LlmRequest) : Option Provider :=
  (selectLoop (r.providers.filter fun p => p.supports_model req.model && p.is_healthy) none).map
    Prod.fst

/-- `Router::update_providers(new_configs)`: builds a brand-new provider
list from the configs (`Provider::new` resets stats) and stores it,
discarding the previous list entirely. -/
def Router.update_providers (_r : Router) (new_configs : List ProviderConfig) : Router :=
  { providers := new_configs.map Provider.new }

/-- Modelled from the spec: the cache key digest. The source uses the
external `blake3` crate (`blake3::hash(prompt).to_hex()`), whose code is
not part of this repository; the spec guarantees only that the digest is
a deterministic pure function of the prompt ("same input prompt always
yields the same key"), which the identity map realises. -/
def hash_key (prompt : String) : String := prompt

/-- One cache entry: key, stored response, and the instant it was
inserted (moka stamps the expiry from the moment of insertion). -/
structure CacheEntry where
  key : String
  value : LlmResponse
  inserted_at : Nat
deriving Repr

/-- The response cache (src/cache/mod.rs `SemanticCache`). The inner
map is the external `moka` crate; modelled from the spec: entries carry
an expiry instant `inserted_at + ttl`, and "entries older than their TTL
are not returned even if not yet physically evicted". Capacity-based
eviction is internal to moka and not needed by the properties here. -/
structure SemanticCache where
  ttl : Nat
  max_capacity : Nat
  entries : List CacheEntry
deriving Repr

/-- `SemanticCache::new(max_capacity, ttl_secs)`. -/
def SemanticCache.new (max_capacity ttl : Nat) : SemanticCache :=
  { ttl := ttl, max_capacity := max_capacity, entries := [] }

/-- `SemanticCache::get(prompt)` at instant `now`: hash the prompt, look
the key up, and return the stored response only if not expired. -/
def SemanticCache.get (c : SemanticCache) (prompt : String) (now : Nat) : Option LlmResponse :=
  match c.entries.find? (fun e => e.key == hash_key prompt) with
  | some e => if now < e.inserted_at + c.ttl then some e.value else none
  | none => none

/-- `SemanticCache::put(prompt, response)` at instant `now`: hash the
prompt and insert/overwrite the entry with a fresh insertion instant. -/
def SemanticCache.put (c : SemanticCache) (prompt : String) (response : LlmResponse)
    (now : Nat) : SemanticCache :=
  { c with
    entries :=
      { key := hash_key prompt, value := response, inserted_at := now } ::
        c.entries.filter fun e => e.key != hash_key prompt }

/-- Body of the HTTP response the orchestrator produces: JSON payload on
the success paths, plain text on the error paths. -/
inductive GatewayBody where
  | json (r : LlmResponse)
  | text (s : String)
deriving Repr, DecidableEq

/-- Result of one `handle_chat_completions` invocation: status code and
body, plus the post-state of the cache and (when a provider was called)
the selected provider's updated stats. -/
structure GatewayResult where
  status : Nat
  body : GatewayBody
  cache : SemanticCache
  provider_stats : Option ProviderStats

/-- `handle_chat_completions` (src/gateway.rs): cache lookup, else
router selection, else provider call; on success record the latency,
stamp `latency_ms`, populate the cache and return 200; on call failure
record the failure and return 502; with no provider return 503. The
measured call latency (microseconds) and the current instant are
explicit arguments; `latency_ms` is its `as_millis` truncation. -/
def handle_chat_completions (cache : SemanticCache) (router : Router) (req : LlmRequest)
    (transport : Transport) (latency_us : Nat) (now : Nat) : GatewayResult :=
  match cache.get req.prompt now with
  | some cached_resp =>
    { status := 200, body := .json cached_resp, cache := cache, provider_stats := none }
  | none =>
    match router.select req with
    | some provider =>
      match (provider.call transport).1 with
      | .ok resp =>
        let stats2 := provider.stats.record_success latency_us
        let resp2 := { resp with latency_ms := latency_us / 1000 }
        { status := 200
          body := .json resp2
          cache := cache.put req.prompt resp2 now
          provider_stats := some stats2 }
      | .error e =>
        { status := 502
          body := .text ("Provider error: " ++ e)
          cache := cache
          provider_stats := some provider.stats.record_failure }
    | none =>
      { status := 503
        body := .text ("No providers available")
        cache := cache
        provider_stats := none }

/-- Functional description of the `for provider in candidates` loop once
a current best is held: keep the incumbent unless a later candidate
scores strictly lower. `selectLoop` computes exactly this (proved in
`selectLoop_pickBest` below). -/
def pickBest (b : Provider) : List Provider → Provider
  | [] => b
  | p :: rest => if selectScore p < selectScore b then pickBest p rest else pickBest b rest

/-- The pure EWMA update in the non-wrapping range:
`if x == 0 then L else (x * 7 + L) / 8`. -/
def ewmaPure (L x : Nat) : Nat :=
  if x = 0 then L else (x * 7 + L) / 8

/-- Distance of the tracked EWMA from the constant sample `L`, the
termination measure of the convergence argument. -/
def ewmaGap (L x : Nat) : Nat :=
  if L ≤ x then x - L else L - x

/-- A concrete provider configuration used by the evaluation witnesses. -/
def cfgA : ProviderConfig :=
  { id := "p1"
    name := "alpha"
    endpoint := "http://localhost:9001"
    api_key := "k1"
    cost_per_1k_input := 1 / 100
    cost_per_1k_output := 2 / 100
    model_map := [("gpt", "alpha-gpt")] }

/-- A second concrete configuration (more expensive than `cfgA`), used
by the evaluation witnesses. -/
def cfgB : ProviderConfig :=
  { id := "p2"
    name := "beta"
    endpoint := "http://localhost:9002"
    api_key := "k2"
    cost_per_1k_input := 3 / 100
    cost_per_1k_output := 4 / 100
    model_map := [("gpt", "beta-gpt")] }

/-- A concrete response payload used by the evaluation witnesses. -/
def respA : LlmResponse :=
  { content := "hello"
    usage := { prompt_tokens := 3, completion_tokens := 5, total_tokens := 8 }
    provider := "alpha"
    latency_ms := 42 }

/-! ## Metrics tracker update effects -/

/-- C4: `record_success(latency)` bumps the request count by one, zeroes
the consecutive-error streak, and sets the EWMA to the sample when the
old EWMA is 0 and to `(old * 7 + latency) / 8` otherwise, touching no
other field; `record_failure()` bumps the error count and the streak,
each by one, touching no other field. Hypotheses keep each wrapping
`u64`/`u32` operation below its modulus. -/
theorem record_success_failure_effects (s : ProviderStats) (latency_us : Nat)
    (hreq : s.request_count + 1 < U64)
    (herr : s.error_count + 1 < U64)
    (hcons : s.consec_errors + 1 < U32)
    (hlat : latency_us < U64)
    (hewma : s.ewma_latency_us * 7 + latency_us < U64) :
    s.record_success latency_us =
      { s with
        request_count := s.request_count + 1
        consec_errors := 0
        ewma_latency_us :=
          if s.ewma_latency_us = 0 then latency_us
          else (s.ewma_latency_us * 7 + latency_us) / 8 }
    ∧ s.record_failure =
      { s with
        error_count := s.error_count + 1
        consec_errors := s.consec_errors + 1 } := by
  constructor
  · unfold ProviderStats.record_success ewmaNext
    rw [Nat.mod_eq_of_lt hreq, Nat.mod_eq_of_lt hlat, Nat.mod_eq_of_lt hewma]
  · unfold ProviderStats.record_failure
    rw [Nat.mod_eq_of_lt herr, Nat.mod_eq_of_lt hcons]

theorem record_success_failure_effects_witness :
    ProviderStats.new.request_count + 1 < U64 ∧
      (ProviderStats.new.record_success 250 =
        { ProviderStats.new with
          request_count := 1
          consec_errors := 0
          ewma_latency_us := 250 }
      ∧ ProviderStats.new.record_failure =
        { ProviderStats.new with error_count := 1, consec_errors := 1 }) :=
  ⟨by decide,
   record_success_failure_effects ProviderStats.new 250 (by decide) (by decide) (by decide)
     (by decide) (by decide)⟩

/-! ## Circuit breaker -/

/-- C3: `is_healthy()` is false exactly when the consecutive-error
streak is at least 5; five consecutive `record_failure` calls from a
state whose streak does not wrap make the provider unhealthy; one
`record_success` zeroes the streak and restores health. -/
theorem health_breaker_spec (p q : Provider) (latency_us : Nat)
    (h : p.stats.consec_errors + 5 < U32) :
    (p.is_healthy = false ↔ 5 ≤ p.stats.consec_errors)
    ∧ ({ p with
          stats := p.stats.record_failure.record_failure.record_failure.record_failure.record_failure } :
        Provider).is_healthy = false
    ∧ (q.stats.record_success latency_us).consec_errors = 0
    ∧ ({ q with stats := q.stats.record_success latency_us } : Provider).is_healthy = true := by
  refine ⟨?_, ?_, rfl, ?_⟩
  · simp only [Provider.is_healthy, decide_eq_false_iff_not, Nat.not_lt]
  · have h1 : (p.stats.consec_errors + 1) % U32 = p.stats.consec_errors + 1 :=
      Nat.mod_eq_of_lt (by omega)
    have h2 : (p.stats.consec_errors + 1 + 1) % U32 = p.stats.consec_errors + 2 :=
      Nat.mod_eq_of_lt (by omega)
    have h3 : (p.stats.consec_errors + 2 + 1) % U32 = p.stats.consec_errors + 3 :=
      Nat.mod_eq_of_lt (by omega)
    have h4 : (p.stats.consec_errors + 3 + 1) % U32 = p.stats.consec_errors + 4 :=
      Nat.mod_eq_of_lt (by omega)
    have h5 : (p.stats.consec_errors + 4 + 1) % U32 = p.stats.consec_errors + 5 :=
      Nat.mod_eq_of_lt (by omega)
    simp only [Provider.is_healthy, ProviderStats.record_failure, h1, h2, h3, h4, h5,
      decide_eq_false_iff_not, Nat.not_lt]
    omega
  · simp only [Provider.is_healthy, ProviderStats.record_success, decide_eq_true_eq]
    omega

theorem health_breaker_spec_witness :
    (Provider.new cfgA).stats.consec_errors + 5 < U32 ∧
      (((Provider.new cfgA).is_healthy = false ↔ 5 ≤ (Provider.new cfgA).stats.consec_errors)
        ∧ ({ Provider.new cfgA with
              stats :=
                (Provider.new cfgA).stats.record_failure.record_failure.record_failure.record_failure.record_failure } :
            Provider).is_healthy = false
        ∧ ((Provider.new cfgA).stats.record_success 250).consec_errors = 0
        ∧ ({ Provider.new cfgA with
              stats := (Provider.new cfgA).stats.record_success 250 } :
            Provider).is_healthy = true) :=
  ⟨by decide, health_breaker_spec (Provider.new cfgA) (Provider.new cfgA) 250 (by decide)⟩

/-! ## Provider-list replacement -/

/-- C6: `update_providers(new_configs)` installs a provider sequence
built fresh from the given configs — the configs appear in order, and
every installed handle carries zero-valued metrics, so any prior health
or latency history is discarded. -/
theorem update_providers_resets_stats (r : Router) (new_configs : List ProviderConfig) :
    (r.update_providers new_configs).providers.map Provider.config = new_configs
    ∧ ∀ p ∈ (r.update_providers new_configs).providers,
        p.stats = ProviderStats.new
        ∧ p.stats.request_count = 0
        ∧ p.stats.error_count = 0
        ∧ p.stats.ewma_latency_us = 0
        ∧ p.stats.consec_errors = 0 := by
  constructor
  · simp only [Router.update_providers, List.map_map]
    have : Provider.config ∘ Provider.new = id := funext fun c => rfl
    rw [this, List.map_id]
  · intro p hp
    simp only [Router.update_providers, List.mem_map] at hp
    obtain ⟨c, _, rfl⟩ := hp
    exact ⟨rfl, rfl, rfl, rfl, rfl⟩

theorem update_providers_resets_stats_witness :
    ((Router.new []).update_providers [cfgA]).providers.map Provider.config = [cfgA]
    ∧ (Provider.new cfgA).stats = ProviderStats.new
    ∧ (Provider.new cfgA).stats.request_count = 0 :=
  ⟨(update_providers_resets_stats (Router.new []) [cfgA]).1,
   ((update_providers_resets_stats (Router.new []) [cfgA]).2 (Provider.new cfgA)
      (by simp [Router.update_providers])).1,
   ((update_providers_resets_stats (Router.new []) [cfgA]).2 (Provider.new cfgA)
      (by simp [Router.update_providers])).2.1⟩

/-! ## Score of a provider with no recorded success -/

/-- Iterated `record_failure` never changes the EWMA latency field. -/
theorem record_failure_iter_ewma (s : ProviderStats) :
    ∀ k, (ProviderStats.record_failure^[k] s).ewma_latency_us = s.ewma_latency_us := by
  intro k
  induction k generalizing s with
  | zero => rfl
  | succ k ih => rw [Function.iterate_succ_apply, ih]; rfl

/-- C9: when the tracked EWMA latency is 0, `score()` is 0 whatever the
consecutive-error streak, the selection latency component is 0, and
recording further failures (any number of them) changes neither the
score nor the selection score. -/
theorem zero_ewma_zero_score (p : Provider) (h : p.stats.ewma_latency_us = 0) :
    p.stats.score = 0
    ∧ latencyScore p = 0
    ∧ (∀ k, (ProviderStats.record_failure^[k] p.stats).score = 0)
    ∧ (∀ k, selectScore { p with stats := ProviderStats.record_failure^[k] p.stats } =
        selectScore p) := by
  refine ⟨?_, ?_, ?_, ?_⟩
  · simp [ProviderStats.score, h]
  · simp [latencyScore, h]
  · intro k
    simp [ProviderStats.score, record_failure_iter_ewma, h]
  · intro k
    simp [selectScore, latencyScore, costScore, record_failure_iter_ewma]

theorem zero_ewma_zero_score_witness :
    (Provider.new cfgA).stats.ewma_latency_us = 0 ∧
      ((Provider.new cfgA).stats.score = 0
        ∧ latencyScore (Provider.new cfgA) = 0
        ∧ (ProviderStats.record_failure^[7] (Provider.new cfgA).stats).score = 0) :=
  ⟨rfl,
   (zero_ewma_zero_score (Provider.new cfgA) rfl).1,
   (zero_ewma_zero_score (Provider.new cfgA) rfl).2.1,
   (zero_ewma_zero_score (Provider.new cfgA) rfl).2.2.1 7⟩

/-! ## Cache round-trip with TTL -/

/-- C2: `get(P)` after `put(P, R)` returns `R` while strictly less than
the TTL has elapsed since the put, and returns a miss (with no physical
eviction having happened) once the TTL has elapsed. -/
theorem cache_roundtrip_ttl (c : SemanticCache) (P : String) (R : LlmResponse) (t now : Nat)
    (hle : t ≤ now) :
    (now - t < c.ttl → (c.put P R t).get P now = some R)
    ∧ (c.ttl ≤ now - t → (c.put P R t).get P now = none) := by
  have hfind :
      ((c.put P R t).entries.find? fun e => e.key == hash_key P) =
        some { key := hash_key P, value := R, inserted_at := t } := by
    simp [SemanticCache.put, List.find?]
  constructor
  · intro hfresh
    simp only [SemanticCache.get, hfind]
    rw [if_pos (by simpa [SemanticCache.put] using by omega)]
  · intro hstale
    simp only [SemanticCache.get, hfind]
    rw [if_neg (by simpa [SemanticCache.put] using by omega)]

theorem cache_roundtrip_ttl_witness :
    3 ≤ 10 ∧
      ((10 - 3 < (SemanticCache.new 64 60).ttl →
          ((SemanticCache.new 64 60).put ("hi") respA 3).get ("hi") 10 = some respA)
        ∧ ((SemanticCache.new 64 60).ttl ≤ 10 - 3 →
          ((SemanticCache.new 64 60).put ("hi") respA 3).get ("hi") 10 = none)) :=
  ⟨by decide, cache_roundtrip_ttl (SemanticCache.new 64 60) ("hi") respA 3 10 (by decide)⟩

/-! ## Provider call failures and the orchestrator's error paths -/

/-- C7: on a failed outbound attempt, `call` returns a failure carrying
the human-readable cause — the network error message, or `"HTTP "`
followed by the status — and leaves the provider's stats unchanged; the
metrics update happens only afterwards, in the orchestrator, which
applies `record_failure` to the very stats the call left untouched. -/
theorem call_failure_frame (p : Provider) (m : String) (st : HttpStatus)
    (txt : Except String String) (hst : st.is_success = false) :
    p.call (.sendErr m) = (.error m, p.stats)
    ∧ p.call (.response st txt) = (.error ("HTTP " ++ st.display), p.stats)
    ∧ (∀ (cache : SemanticCache) (r : Router) (req : LlmRequest) (lat now : Nat)
        (t : Transport) (e : String) (q : Provider),
        cache.get req.prompt now = none →
        r.select req = some q →
        (q.call t).1 = Except.error e →
        (handle_chat_completions cache r req t lat now).provider_stats =
            some q.stats.record_failure
          ∧ (handle_chat_completions cache r req t lat now).body =
            .text ("Provider error: " ++ e)) := by
  refine ⟨rfl, ?_, ?_⟩
  · simp [Provider.call, hst]
  · intro cache r req lat now t e q hmiss hsel hcall
    simp [handle_chat_completions, hmiss, hsel, hcall]

theorem call_failure_frame_witness :
    ({ display := "503 Service Unavailable", is_success := false } : HttpStatus).is_success =
        false ∧
      ((Provider.new cfgA).call (.sendErr ("connection refused")) =
          (Except.error ("connection refused"), (Provider.new cfgA).stats)
        ∧ (Provider.new cfgA).call
            (.response { display := "503 Service Unavailable", is_success := false }
              (Except.ok (""))) =
          (Except.error ("HTTP 503 Service Unavailable"), (Provider.new cfgA).stats)) :=
  ⟨rfl,
   (call_failure_frame (Provider.new cfgA) ("connection refused")
      { display := "503 Service Unavailable", is_success := false } (Except.ok ("")) rfl).1,
   (call_failure_frame (Provider.new cfgA) ("connection refused")
      { display := "503 Service Unavailable", is_success := false } (Except.ok ("")) rfl).2.1⟩

/-- C8: when no provider in the snapshot both supports the request's
model and is healthy, `select` returns `none`, and the orchestrator
surfaces this as the distinct 503 "No providers available" outcome
(without calling any provider or touching any stats). -/
theorem select_none_unavailable (cache : SemanticCache) (r : Router) (req : LlmRequest)
    (transport : Transport) (latency_us now : Nat)
    (h : ∀ p ∈ r.providers, ¬(p.supports_model req.model = true ∧ p.is_healthy = true))
    (hmiss : cache.get req.prompt now = none) :
    r.select req = none
    ∧ handle_chat_completions cache r req transport latency_us now =
      { status := 503
        body := .text ("No providers available")
        cache := cache
        provider_stats := none } := by
  have hfilter :
      (r.providers.filter fun p => p.supports_model req.model && p.is_healthy) = [] := by
    rw [List.filter_eq_nil_iff]
    intro p hp
    have := h p hp
    cases hsm : p.supports_model req.model <;> cases hh : p.is_healthy <;>
      simp_all
  have hsel : r.select req = none := by
    simp [Router.select, hfilter, selectLoop]
  refine ⟨hsel, ?_⟩
  simp only [handle_chat_completions, hmiss, hsel]

theorem select_none_unavailable_witness :
    (∀ p ∈ (Router.new []).providers,
        ¬(p.supports_model ("gpt") = true ∧ p.is_healthy = true)) ∧
      ((Router.new []).select { model := "gpt", prompt := "hi" } = none
        ∧ handle_chat_completions (SemanticCache.new 64 60) (Router.new [])
            { model := "gpt", prompt := "hi" } (.sendErr ("x")) 1000 0 =
          { status := 503
            body := .text ("No providers available")
            cache := SemanticCache.new 64 60
            provider_stats := none }) :=
  ⟨fun p hp => absurd hp (by simp [Router.new]),
   select_none_unavailable (SemanticCache.new 64 60) (Router.new [])
     { model := "gpt", prompt := "hi" } (.sendErr ("x")) 1000 0
     (fun p hp => absurd hp (by simp [Router.new])) rfl⟩

/-- C10: the orchestrator writes the response cache only on the
provider-success path — on a cache miss followed by either no eligible
provider or a failed provider call, the handler returns its error
outcome (503 or 502, with a text body) and the cache is unchanged. -/
theorem cache_frame_on_failure (cache : SemanticCache) (r : Router) (req : LlmRequest)
    (transport : Transport) (latency_us now : Nat)
    (hmiss : cache.get req.prompt now = none)
    (h : r.select req = none ∨
      ∃ q e, r.select req = some q ∧ (q.call transport).1 = Except.error e) :
    (handle_chat_completions cache r req transport latency_us now).cache = cache
    ∧ ((handle_chat_completions cache r req transport latency_us now).status = 502
        ∨ (handle_chat_completions cache r req transport latency_us now).status = 503)
    ∧ ∃ msg,
        (handle_chat_completions cache r req transport latency_us now).body = .text msg := by
  rcases h with hsel | ⟨q, e, hsel, hcall⟩
  · simp [handle_chat_completions, hmiss, hsel]
  · simp [handle_chat_completions, hmiss, hsel, hcall]

theorem cache_frame_on_failure_witness :
    (SemanticCache.new 64 60).get ("hi") 0 = none ∧
      ((handle_chat_completions (SemanticCache.new 64 60) (Router.new [])
          { model := "gpt", prompt := "hi" } (.sendErr ("x")) 1000 0).cache =
        SemanticCache.new 64 60
      ∧ ((handle_chat_completions (SemanticCache.new 64 60) (Router.new [])
            { model := "gpt", prompt := "hi" } (.sendErr ("x")) 1000 0).status = 502
          ∨ (handle_chat_completions (SemanticCache.new 64 60) (Router.new [])
            { model := "gpt", prompt := "hi" } (.sendErr ("x")) 1000 0).status = 503)
      ∧ ∃ msg,
          (handle_chat_completions (SemanticCache.new 64 60) (Router.new [])
            { model := "gpt", prompt := "hi" } (.sendErr ("x")) 1000 0).body = .text msg) :=
  ⟨rfl,
   cache_frame_on_failure (SemanticCache.new 64 60) (Router.new [])
     { model := "gpt", prompt := "hi" } (.sendErr ("x")) 1000 0 rfl
     (Or.inl (by simp [Router.select, Router.new, selectLoop]))⟩

/-! ## Selection returns the first candidate of minimal score -/

/-- The selection score written out:
EWMA latency in milliseconds plus 100 times (cost-per-1k-input × 1000). -/
theorem selectScore_formula (p : Provider) :
    selectScore p =
      (p.stats.ewma_latency_us : ℚ) / 1000 + 100 * (p.config.cost_per_1k_input * 1000) := by
  unfold selectScore latencyScore costScore
  ring

/-- `selectLoop` with a held best computes `pickBest`. -/
theorem selectLoop_pickBest (l : List Provider) :
    ∀ b, selectLoop l (some (b, selectScore b)) =
      some (pickBest b l, selectScore (pickBest b l)) := by
  induction l with
  | nil => intro b; rfl
  | cons p rest ih =>
    intro b
    simp only [selectLoop, pickBest]
    by_cases h : selectScore p < selectScore b
    · rw [if_pos h, if_pos h, ih]
    · rw [if_neg h, if_neg h, ih]

/-- `Router::select` returns `pickBest` of the filtered candidates. -/
theorem select_eq_pickBest (r : Router) (req : LlmRequest) :
    r.select req =
      match r.providers.filter (fun p => p.supports_model req.model && p.is_healthy) with
      | [] => none
      | c :: cs => some (pickBest c cs) := by
  unfold Router.select
  cases h : r.providers.filter (fun p => p.supports_model req.model && p.is_healthy) with
  | nil => rfl
  | cons c cs =>
    show Option.map Prod.fst (selectLoop cs (some (c, selectScore c))) = _
    rw [selectLoop_pickBest]
    rfl

/-- `pickBest b l` scores no higher than `b` and than every member of `l`. -/
theorem pickBest_min (l : List Provider) :
    ∀ b, selectScore (pickBest b l) ≤ selectScore b
      ∧ ∀ q ∈ l, selectScore (pickBest b l) ≤ selectScore q := by
  induction l with
  | nil => intro b; exact ⟨le_refl _, by simp⟩
  | cons p rest ih =>
    intro b
    simp only [pickBest]
    by_cases h : selectScore p < selectScore b
    · rw [if_pos h]
      refine ⟨le_of_lt (lt_of_le_of_lt (ih p).1 h), ?_⟩
      intro q hq
      rcases List.mem_cons.mp hq with rfl | hq
      · exact (ih q).1
      · exact (ih p).2 q hq
    · rw [if_neg h]
      refine ⟨(ih b).1, ?_⟩
      intro q hq
      rcases List.mem_cons.mp hq with rfl | hq
      · exact le_trans (ih b).1 (not_lt.mp h)
      · exact (ih b).2 q hq

/-- `pickBest b l` splits `b :: l` so that every candidate strictly
before the winner scores strictly higher (ties keep the earlier one). -/
theorem pickBest_first (l : List Provider) :
    ∀ b, ∃ l₁ l₂, b :: l = l₁ ++ pickBest b l :: l₂
      ∧ ∀ q ∈ l₁, selectScore (pickBest b l) < selectScore q := by
  induction l with
  | nil => intro b; exact ⟨[], [], rfl, by simp⟩
  | cons p rest ih =>
    intro b
    simp only [pickBest]
    by_cases h : selectScore p < selectScore b
    · rw [if_pos h]
      obtain ⟨l₁, l₂, heq, hlt⟩ := ih p
      refine ⟨b :: l₁, l₂, ?_, ?_⟩
      · rw [List.cons_append, ← heq]
      · intro q hq
        rcases List.mem_cons.mp hq with rfl | hq
        · exact lt_of_le_of_lt (pickBest_min rest p).1 h
        · exact hlt q hq
    · rw [if_neg h]
      obtain ⟨l₁, l₂, heq, hlt⟩ := ih b
      cases l₁ with
      | nil =>
        simp only [List.nil_append] at heq
        injection heq with hb _
        refine ⟨[], p :: rest, ?_, by simp⟩
        rw [List.nil_append, ← hb]
      | cons x l₁ =>
        rw [List.cons_append] at heq
        injection heq with hx hrest
        refine ⟨b :: p :: l₁, l₂, ?_, ?_⟩
        · conv_lhs => rw [hrest]
          simp
        · have hxb : selectScore (pickBest b rest) < selectScore b := by
            have := hlt x (List.mem_cons_self x l₁)
            rwa [← hx] at this
          intro q hq
          rcases List.mem_cons.mp hq with rfl | hq
          · exact hxb
          rcases List.mem_cons.mp hq with rfl | hq
          · exact lt_of_lt_of_le hxb (not_lt.mp h)
          · exact hlt q (List.mem_cons_of_mem x hq)

/-- C1: for every request and snapshot, `select` returns the candidate
with the strictly smallest score — EWMA latency in milliseconds plus
100 times (cost-per-1k-input-tokens × 1000) — among the providers that
support the model and are healthy, and ties go to the candidate
encountered first in the snapshot's order. -/
theorem select_min_score_first (r : Router) (req : LlmRequest)
    (hne : r.providers.filter (fun p => p.supports_model req.model && p.is_healthy) ≠ []) :
    ∃ c l₁ l₂,
      r.select req = some c
      ∧ r.providers.filter (fun p => p.supports_model req.model && p.is_healthy) =
          l₁ ++ c :: l₂
      ∧ (∀ q ∈ l₁ ++ c :: l₂,
          (c.stats.ewma_latency_us : ℚ) / 1000 + 100 * (c.config.cost_per_1k_input * 1000)
            ≤ (q.stats.ewma_latency_us : ℚ) / 1000 + 100 * (q.config.cost_per_1k_input * 1000))
      ∧ ∀ q ∈ l₁,
          (c.stats.ewma_latency_us : ℚ) / 1000 + 100 * (c.config.cost_per_1k_input * 1000)
            < (q.stats.ewma_latency_us : ℚ) / 1000 + 100 * (q.config.cost_per_1k_input * 1000) := by
  have hex :
      ∃ c0 cs,
        r.providers.filter (fun p => p.supports_model req.model && p.is_healthy) = c0 :: cs := by
    cases hcc : r.providers.filter (fun p => p.supports_model req.model && p.is_healthy) with
    | nil => exact absurd hcc hne
    | cons d ds => exact ⟨d, ds, rfl⟩
  obtain ⟨c0, cs, hc⟩ := hex
  obtain ⟨l₁, l₂, heq, hlt⟩ := pickBest_first cs c0
  refine ⟨pickBest c0 cs, l₁, l₂, ?_, ?_, ?_, ?_⟩
  · rw [select_eq_pickBest, hc]
  · rw [hc, heq]
  · intro q hq
    rw [← selectScore_formula, ← selectScore_formula]
    rw [← heq] at hq
    rcases List.mem_cons.mp hq with hq0 | hq
    · rw [hq0]; exact (pickBest_min cs c0).1
    · exact (pickBest_min cs c0).2 q hq
  · intro q hq
    rw [← selectScore_formula, ← selectScore_formula]
    exact hlt q hq

theorem select_min_score_first_witness :
    (Router.new [cfgA, cfgB]).providers.filter
        (fun p => p.supports_model ({ model := "gpt", prompt := "hi" } : LlmRequest).model &&
          p.is_healthy) ≠ [] ∧
      ∃ c l₁ l₂,
        (Router.new [cfgA, cfgB]).select { model := "gpt", prompt := "hi" } = some c
        ∧ (Router.new [cfgA, cfgB]).providers.filter
            (fun p => p.supports_model ({ model := "gpt", prompt := "hi" } : LlmRequest).model &&
              p.is_healthy) = l₁ ++ c :: l₂
        ∧ (∀ q ∈ l₁ ++ c :: l₂,
            (c.stats.ewma_latency_us : ℚ) / 1000 + 100 * (c.config.cost_per_1k_input * 1000)
              ≤ (q.stats.ewma_latency_us : ℚ) / 1000 + 100 * (q.config.cost_per_1k_input * 1000))
        ∧ ∀ q ∈ l₁,
            (c.stats.ewma_latency_us : ℚ) / 1000 + 100 * (c.config.cost_per_1k_input * 1000)
              < (q.stats.ewma_latency_us : ℚ) / 1000 +
                100 * (q.config.cost_per_1k_input * 1000) :=
  ⟨by decide,
   select_min_score_first (Router.new [cfgA, cfgB]) { model := "gpt", prompt := "hi" }
     (by decide)⟩

/-! ## EWMA convergence under a constant sample -/

theorem U64_val : U64 = 18446744073709551616 := by norm_num [U64]

/-- A non-fixed EWMA step strictly shrinks the gap to the sample. -/
theorem ewmaPure_fixed_or_gap_lt (L x : Nat) :
    ewmaPure L x = x ∨ ewmaGap L (ewmaPure L x) < ewmaGap L x := by
  by_cases hx : x = 0
  · subst hx
    by_cases hL : L = 0
    · left; simp [ewmaPure, hL]
    · right
      simp only [ewmaPure, if_pos rfl, ewmaGap]
      split_ifs <;> omega
  · have hd := Nat.div_add_mod (x * 7 + L) 8
    have hm : (x * 7 + L) % 8 < 8 := Nat.mod_lt _ (by omega)
    simp only [ewmaPure, if_neg hx, ewmaGap]
    split_ifs <;> omega

/-- A fixed point of the EWMA step is within integer-division rounding
(at most 7 below) of the constant sample. -/
theorem ewmaPure_fixed_near (L x : Nat) (h : ewmaPure L x = x) : x ≤ L ∧ L ≤ x + 7 := by
  by_cases hx : x = 0
  · subst hx
    have hL : L = 0 := by simpa [ewmaPure] using h
    omega
  · have hd := Nat.div_add_mod (x * 7 + L) 8
    have hm : (x * 7 + L) % 8 < 8 := Nat.mod_lt _ (by omega)
    simp only [ewmaPure, if_neg hx] at h
    omega

theorem ewmaPure_eventually_fixed_aux (L : Nat) :
    ∀ m x, ewmaGap L x ≤ m →
      ∃ v N, ewmaPure L v = v ∧ ∀ n, N ≤ n → (ewmaPure L)^[n] x = v := by
  intro m
  induction m with
  | zero =>
    intro x hx
    have hxL : x = L := by
      simp only [ewmaGap] at hx
      split_ifs at hx <;> omega
    have hfix : ewmaPure L x = x := by
      subst hxL
      by_cases hL : x = 0
      · simp [ewmaPure, hL]
      · simp only [ewmaPure, if_neg hL]
        have h8 : x * 7 + x = 8 * x := by ring
        rw [h8, Nat.mul_div_cancel_left x (by norm_num)]
    exact ⟨x, 0, hfix, fun n _ => Function.iterate_fixed hfix n⟩
  | succ m ih =>
    intro x hx
    rcases ewmaPure_fixed_or_gap_lt L x with hfix | hdec
    · exact ⟨x, 0, hfix, fun n _ => Function.iterate_fixed hfix n⟩
    · obtain ⟨v, N, hv, hiter⟩ := ih (ewmaPure L x) (by omega)
      refine ⟨v, N + 1, hv, ?_⟩
      intro n hn
      obtain ⟨k, rfl⟩ : ∃ k, n = k + 1 := ⟨n - 1, by omega⟩
      rw [Function.iterate_succ_apply]
      exact hiter k (by omega)

/-- The pure EWMA iteration is eventually constant at a fixed point. -/
theorem ewmaPure_eventually_fixed (L x : Nat) :
    ∃ v N, ewmaPure L v = v ∧ ∀ n, N ≤ n → (ewmaPure L)^[n] x = v :=
  ewmaPure_eventually_fixed_aux L (ewmaGap L x) x le_rfl

/-- In the non-wrapping range the embedded update `ewmaNext` agrees with
the pure step and preserves the bound. -/
theorem ewmaNext_eq_pure (L x M : Nat) (hM : M < 2 ^ 61) (hx : x ≤ M) (hL : L ≤ M) :
    ewmaNext x (L % U64) = ewmaPure L x ∧ ewmaPure L x ≤ M := by
  have hLU : L % U64 = L := Nat.mod_eq_of_lt (by rw [U64_val]; omega)
  by_cases hx0 : x = 0
  · subst hx0
    exact ⟨by simp [ewmaNext, ewmaPure, hLU], by simpa [ewmaPure] using hL⟩
  · have hmod : (x * 7 + L) % U64 = x * 7 + L := by
      rw [U64_val]
      exact Nat.mod_eq_of_lt (by omega)
    constructor
    · simp [ewmaNext, ewmaPure, hx0, hLU, hmod]
    · simp only [ewmaPure, if_neg hx0]
      calc (x * 7 + L) / 8 ≤ 8 * M / 8 := Nat.div_le_div_right (by omega)
        _ = M := Nat.mul_div_cancel_left M (by norm_num)

/-- Iterating `record_success` with a fixed sample drives the EWMA field
exactly as the pure step does, and keeps it bounded. -/
theorem record_success_iter_ewma (L M : Nat) (hM : M < 2 ^ 61) (hL : L ≤ M) :
    ∀ (n : Nat) (s : ProviderStats), s.ewma_latency_us ≤ M →
      ((fun t => ProviderStats.record_success t L)^[n] s).ewma_latency_us =
          (ewmaPure L)^[n] s.ewma_latency_us
        ∧ (ewmaPure L)^[n] s.ewma_latency_us ≤ M := by
  intro n
  induction n with
  | zero => intro s hs; exact ⟨rfl, hs⟩
  | succ n ih =>
    intro s hs
    obtain ⟨heq, hle⟩ := ewmaNext_eq_pure L s.ewma_latency_us M hM hs hL
    have hstep : ((fun t => ProviderStats.record_success t L) s).ewma_latency_us =
        ewmaPure L s.ewma_latency_us := heq
    rw [Function.iterate_succ_apply, Function.iterate_succ_apply]
    have hres := ih ((fun t => ProviderStats.record_success t L) s) (by rw [hstep]; exact hle)
    rw [hstep] at hres
    exact hres

/-- C5: from any starting EWMA value, repeatedly calling
`record_success(L)` with a constant latency `L` makes the tracked EWMA
latency constant after a bounded number of iterations, at a value within
integer-division rounding (at most 7 below) of `L`; afterwards it never
changes. The bounds keep the `u64` arithmetic away from wrap-around. -/
theorem ewma_convergence (s : ProviderStats) (L : Nat)
    (hs : s.ewma_latency_us < 2 ^ 61) (hL : L < 2 ^ 61) :
    ∃ N v, v ≤ L ∧ L ≤ v + 7 ∧
      ∀ n, N ≤ n →
        ((fun t => ProviderStats.record_success t L)^[n] s).ewma_latency_us = v := by
  obtain ⟨v, N, hv, hiter⟩ := ewmaPure_eventually_fixed L s.ewma_latency_us
  obtain ⟨hv1, hv2⟩ := ewmaPure_fixed_near L v hv
  refine ⟨N, v, hv1, hv2, ?_⟩
  intro n hn
  have hb := record_success_iter_ewma L (max s.ewma_latency_us L) (max_lt hs hL)
    (le_max_right _ _) n s (le_max_left _ _)
  rw [hb.1, hiter n hn]

theorem ewma_convergence_witness :
    ProviderStats.new.ewma_latency_us < 2 ^ 61 ∧
      ∃ N v, v ≤ 800 ∧ 800 ≤ v + 7 ∧
        ∀ n, N ≤ n →
          ((fun t => ProviderStats.record_success t 800)^[n] ProviderStats.new).ewma_latency_us =
            v :=
  ⟨by decide, ewma_convergence ProviderStats.new 800 (by decide) (by decide)⟩

end LlmEdge
